import Mathlib

/-!
Shallow embedding of the cosmetic-ingredient lookup backend:
data loading (src/backend/rag/data_loader.py, src/backend/migrate_to_supabase.py),
name resolution (data_loader.py, supabase_client.py), skin-type classification
(src/backend/rag/enterprise_rag.py), report generation (src/backend/llm/mock_llm.py)
and search orchestration (src/backend/rag/ingredient_search.py, src/backend/rag/memory.py).
Strings are modelled as lists of characters, Python dicts as insertion-ordered
association lists, and fallible external calls as Except-valued parameters.
-/

namespace Ingredient

/-- Python strings, modelled as lists of characters. -/
abbrev Str := List Char

/-- Python str.strip: drop leading and trailing whitespace. -/
def pyStrip (s : Str) : Str :=
  ((s.dropWhile Char.isWhitespace).reverse.dropWhile Char.isWhitespace).reverse

/-- Python str.lower (ASCII letters; other characters unchanged). -/
def pyLower (s : Str) : Str :=
  s.map Char.toLower

/-- Python str.replace of a space by nothing: remove every space character. -/
def removeSpaces (s : Str) : Str :=
  s.filter (fun c => c != ' ')

/-- Query-side normalization: strip, lower, remove spaces
(data_loader.py line 188, supabase_client.py line 133). -/
def normalizeQuery (s : Str) : Str :=
  removeSpaces (pyLower (pyStrip s))

/-- Index-side normalization: lower, remove spaces
(data_loader.py lines 131 and 135). -/
def normalizeKey (s : Str) : Str :=
  removeSpaces (pyLower s)

/-- First argument leads the second, character by character (helper for the
Python substring test). -/
def leadsCh : Str → Str → Bool
  | [], _ => true
  | _ :: _, [] => false
  | a :: as, b :: bs => a == b && leadsCh as bs

/-- Python substring containment of sub in big: contiguous substring test. -/
def isSubCh : Str → Str → Bool
  | sub, [] => leadsCh sub []
  | sub, b :: bs => leadsCh sub (b :: bs) || isSubCh sub bs

/-- Python split at commas: split at every comma, keeping empty pieces. -/
def splitComma : Str → List Str
  | [] => [[]]
  | c :: rest =>
    if c = ',' then [] :: splitComma rest
    else
      match splitComma rest with
      | [] => [[c]]
      | h :: t => (c :: h) :: t

/-- Python join of parts by sep. -/
def joinSep (sep : Str) : List Str → Str
  | [] => []
  | [x] => x
  | x :: y :: t => x ++ sep ++ joinSep sep (y :: t)

/-- Comma splitting with per-piece strip and removal of blank pieces: the
list-comprehension idiom used throughout the sources. -/
def splitCommaClean (s : Str) : List Str :=
  ((splitComma s).map pyStrip).filter (fun x => x != [])

/-- A JSON field value that may arrive either as a plain string or as a list
of strings (the list/scalar duality of purpose, good_for, bad_for). -/
inductive SVal where
  | str (s : Str)
  | list (l : List Str)
deriving DecidableEq

/-- The Python value-or-empty-list idiom for such a field: a missing or falsy
value becomes the empty list. -/
def orEmptyList : Option SVal → SVal
  | none => SVal.list []
  | some (SVal.str []) => SVal.list []
  | some (SVal.list []) => SVal.list []
  | some v => v

/-- An ingredient record as materialized by the loading layer. -/
structure Info where
  korName : Str
  engName : Str
  description : Str
  purpose : SVal
  goodFor : SVal
  badFor : SVal
deriving DecidableEq

/-- A raw flat-file JSON item with the uppercase legacy field names; every
field may be absent. -/
structure RawItem where
  ingrKorName : Option Str
  ingrEngName : Option Str
  description : Option Str
  purpose : Option SVal
  goodFor : Option SVal
  badFor : Option SVal
deriving DecidableEq

/-- One record of DataLoader._load_json_data (data_loader.py lines 88-95):
field renaming with empty-string defaults and or-empty-list coercion; the
names are copied verbatim, nothing is filled in. -/
def loadItem (item : RawItem) : Info :=
  ⟨item.ingrKorName.getD [], item.ingrEngName.getD [], item.description.getD [],
   orEmptyList item.purpose, orEmptyList item.goodFor, orEmptyList item.badFor⟩

/-- DataLoader._load_json_data (data_loader.py lines 80-111): the parse
outcome is passed in; every exception arm yields the empty record set. -/
def loadJsonData : Except Str (List RawItem) → List Info
  | Except.error _ => []
  | Except.ok raw => raw.map loadItem

def unknownName : Str := "Unknown".toList

/-- transform_ingredient (migrate_to_supabase.py lines 42-58): a missing or
blank Korean name is filled with the English name, or "Unknown" if both are
missing. -/
def transformIngredient (item : RawItem) : Info :=
  let korName := item.ingrKorName.getD []
  let engName := item.ingrEngName.getD []
  let korFilled :=
    if korName = [] ∨ pyStrip korName = [] then
      if engName ≠ [] then engName else unknownName
    else korName
  ⟨korFilled, engName, item.description.getD [],
   orEmptyList item.purpose, orEmptyList item.goodFor, orEmptyList item.badFor⟩

/-- Lookup in an insertion-ordered association list (Python dict access). -/
def alookup {α : Type} : List (Str × α) → Str → Option α
  | [], _ => none
  | (k2, v) :: rest, k => if k2 = k then some v else alookup rest k

/-- Key containment in an insertion-ordered association list. -/
def containsKey {α : Type} : List (Str × α) → Str → Bool
  | [], _ => false
  | (k2, _) :: rest, k => if k2 = k then true else containsKey rest k

/-- Python dict assignment: overwrite in place when the key exists, append
otherwise (keeps first-insertion iteration order). -/
def insertPy {α : Type} (m : List (Str × α)) (k : Str) (v : α) : List (Str × α) :=
  if containsKey m k then m.map (fun p => if p.1 = k then (k, v) else p)
  else m ++ [(k, v)]

/-- DataLoader._build_indexes (data_loader.py lines 113-138). -/
def buildIndexes (data : List Info) : List (Str × Info) × List (Str × Info) :=
  data.foldl
    (fun acc item =>
      let kor := if item.korName ≠ [] then insertPy acc.1 (normalizeKey item.korName) item
                 else acc.1
      let eng := if item.engName ≠ [] then insertPy acc.2 (normalizeKey item.engName) item
                 else acc.2
      (kor, eng))
    (([], []) : List (Str × Info) × List (Str × Info))

/-- Substring scan over an index in iteration order, first hit wins
(data_loader.py lines 201-205 and 208-211). -/
def partialScan (idx : List (Str × Info)) (normalized : Str) : Option Info :=
  Option.map Prod.snd (idx.find? (fun p => isSubCh normalized p.1 || isSubCh p.1 normalized))

/-- Per-name body of DataLoader._get_ingredients_from_local
(data_loader.py lines 187-211): exact match on the Korean index, else the
English index, else first substring hit over Korean keys, else over English
keys, else unmatched. -/
def matchOne (kor eng : List (Str × Info)) (name : Str) : Option Info :=
  match alookup kor (normalizeQuery name) with
  | some item => some item
  | none =>
    match alookup eng (normalizeQuery name) with
    | some item => some item
    | none =>
      match partialScan kor (normalizeQuery name) with
      | some item => some item
      | none => partialScan eng (normalizeQuery name)

/-- The loop over names of _get_ingredients_from_local, threading result_map. -/
def resolveGo (kor eng : List (Str × Info)) : List Str → List (Str × Info) → List (Str × Info)
  | [], acc => acc
  | n :: ns, acc =>
    match matchOne kor eng n with
    | some item => resolveGo kor eng ns (insertPy acc n item)
    | none => resolveGo kor eng ns acc

/-- DataLoader._get_ingredients_from_local (data_loader.py lines 162-213). -/
def getFromLocal (kor eng : List (Str × Info)) (names : List Str) : List (Str × Info) :=
  resolveGo kor eng names []

/-- The fixed skin-type localization table (enterprise_rag.py lines 133-136). -/
def skinTypeMap : List (Str × Str) :=
  [("건성".toList, "dry".toList), ("지성".toList, "oily".toList),
   ("민감성".toList, "sensitive".toList), ("여드름성".toList, "acne".toList),
   ("복합성".toList, "combination".toList), ("중성".toList, "normal".toList)]

/-- Table lookup with lowercased passthrough default (enterprise_rag.py 137). -/
def normalizeSkinType (skinType : Str) : Str :=
  (alookup skinTypeMap skinType).getD (pyLower skinType)

/-- Field access with the or-empty-list guard followed by the
isinstance-of-string comma-split coercion (enterprise_rag.py 145-157). -/
def fieldAsList (v : SVal) : List Str :=
  match v with
  | SVal.str s => splitCommaClean s
  | SVal.list l => l

/-- Display name: Korean name if present, else English name, else the lookup
key (enterprise_rag.py line 149). -/
def displayName (info : Info) (name : Str) : Str :=
  if info.korName ≠ [] then info.korName
  else if info.engName ≠ [] then info.engName
  else name

/-- The fixed general-caution tag set (enterprise_rag.py line 175). -/
def generalCautionTags : List Str :=
  ["sensitive".toList, "민감성".toList, "acne".toList, "여드름".toList]

def hasGeneralCaution (badFor : List Str) : Bool :=
  generalCautionTags.any (fun kw => badFor.contains kw)

/-- Truncated description: first 100 characters plus ellipsis if longer
(enterprise_rag.py lines 169 and 177). -/
def shortDesc (d : Str) : Str :=
  if d.length > 100 then d.take 100 ++ "...".toList else d

structure GoodMatch where
  name : Str
  purpose : Str
deriving DecidableEq

structure BadMatch where
  name : Str
  description : Str
deriving DecidableEq

/-- The four accumulators of the classification loop. -/
structure CState where
  goodMatches : List GoodMatch
  badMatches : List BadMatch
  goodNames : List Str
  badNames : List Str
deriving DecidableEq

def noFunctionInfo : Str := "기능 정보 없음".toList
def genericCaution : Str := "일부 피부에 자극을 줄 수 있습니다.".toList
def cautionSuffix : Str := " 피부에 주의가 필요합니다.".toList

/-- Loop body of analyze_product_ingredients (enterprise_rag.py lines 144-182).
The good branch and the bad branch update disjoint accumulators, so they are
written as two independent updates; the bad branch reads the bad-name list as
it stands before this iteration, as in the source. -/
def classifyStep (skinType : Str) (st : CState) (entry : Str × Info) : CState :=
  let name := entry.1
  let info := entry.2
  let normalized := normalizeSkinType skinType
  let goodFor := fieldAsList info.goodFor
  let badFor := fieldAsList info.badFor
  let purpose := fieldAsList info.purpose
  let dn := displayName info name
  let sd := shortDesc info.description
  let goodHit := normalized ∈ goodFor ∨ skinType ∈ goodFor
  let goodMatches :=
    if goodHit then
      st.goodMatches ++ [⟨dn, if purpose ≠ [] then joinSep (", ".toList) purpose else noFunctionInfo⟩]
    else st.goodMatches
  let goodNames := if goodHit then st.goodNames ++ [dn] else st.goodNames
  let badPair :=
    if normalized ∈ badFor ∨ skinType ∈ badFor then
      (st.badMatches ++ [⟨dn, if sd ≠ [] then sd else skinType ++ cautionSuffix⟩],
       st.badNames ++ [dn])
    else if hasGeneralCaution badFor then
      if dn ∈ st.badNames then (st.badMatches, st.badNames)
      else
        (st.badMatches ++ [⟨dn, if sd ≠ [] then sd else genericCaution⟩],
         st.badNames ++ [dn])
    else (st.badMatches, st.badNames)
  ⟨goodMatches, badPair.1, goodNames, badPair.2⟩

/-- The classification loop over all resolved records, in map iteration
order (enterprise_rag.py lines 139-182). -/
def classifyAll (skinType : Str) (entries : List (Str × Info)) : CState :=
  entries.foldl (classifyStep skinType) ⟨[], [], [], []⟩

def apos : Char := '\''
def commaSpace : Str := ", ".toList

/-- The fixed purpose localization table (mock_llm.py lines 112-116). -/
def purposeMap : List (Str × Str) :=
  [("moisturizer".toList, "보습".toList), ("antioxidant".toList, "항산화".toList),
   ("exfoliant".toList, "각질 제거".toList), ("fragrance".toList, "향료".toList),
   ("preservative".toList, "보존".toList), ("emulsifier".toList, "유화".toList)]

/-- Main-purpose inference of mock_llm.py lines 107-120, taken at the
structured level the spec licenses for the report contract: the first tag of
the purpose summary, stripped and lowercased, mapped through purpose_map with
passthrough default; the "복합적인" default when no tag exists. -/
def mainPurposeOf (purposeSummary : List Str) : Str :=
  match purposeSummary with
  | [] => "복합적인".toList
  | tag :: _ =>
    let nm := pyLower (pyStrip tag)
    (alookup purposeMap nm).getD nm

def goodVerdict (skinType : Str) : Str :=
  "전반적으로 ".toList ++ skinType ++ " 피부에 좋은 제품으로 평가됩니다.".toList

def observeVerdict : Str := "사용 시 피부 반응을 주의 깊게 관찰하시기 바랍니다.".toList

def checkVerdict : Str := "개인적인 피부 반응을 확인하며 사용하시기 바랍니다.".toList

/-- The positive sentence (mock_llm.py lines 125-130). -/
def goodSentence (skinType goodNames : Str) : Str :=
  let l := splitCommaClean goodNames
  let short := joinSep commaSpace (l.take 3)
  let short2 := if l.length > 3 then short ++ " 등".toList else short
  "특히 ".toList ++ skinType ++ " 피부에 좋은 ".toList ++ short2 ++ " 성분이 포함되어 있습니다.".toList

/-- The caution sentence (mock_llm.py lines 133-136). -/
def badSentence (badNames : Str) : Str :=
  let l := splitCommaClean badNames
  let short := joinSep commaSpace (l.take 2)
  "다만, ".toList ++ short ++ " 성분은 일부 피부에 자극을 줄 수 있으니 참고하세요.".toList

/-- report_parts of _generate_product_analysis (mock_llm.py lines 104-146)
with the main-purpose phrase already resolved: opening sentence, optional
good sentence, optional caution sentence, and the three-way closing verdict. -/
def reportParts (skinType goodNames badNames mainPurpose : Str) : List Str :=
  let p1 := "이 화장품은(는) ".toList ++ [apos] ++ mainPurpose ++ [apos] ++
    "에 중점을 둔 제품으로 보입니다.".toList
  let goodPart : List Str := if goodNames ≠ [] then [goodSentence skinType goodNames] else []
  let badPart : List Str := if badNames ≠ [] then [badSentence badNames] else []
  let closing :=
    if goodNames ≠ [] ∧ badNames = [] then goodVerdict skinType
    else if goodNames ≠ [] ∧ badNames ≠ [] then observeVerdict
    else checkVerdict
  [p1] ++ goodPart ++ badPart ++ [closing]

/-- The space-join of report_parts (mock_llm.py line 146), over the four
structured inputs of the report contract. -/
def generateReport (skinType goodNames badNames : Str) (purposeSummary : List Str) : Str :=
  joinSep (" ".toList) (reportParts skinType goodNames badNames (mainPurposeOf purposeSummary))

/-- The closing-verdict decision table as phrased in the spec, keyed on
(goodNames non-empty, badNames non-empty). -/
def closingTable (skinType : Str) : Bool → Bool → Str
  | true, false => goodVerdict skinType
  | true, true => observeVerdict
  | false, _ => checkVerdict

structure Msg where
  input : Str
  output : Str
  timestamp : Str
deriving DecidableEq

structure SupaRec where
  korName : Str
  engName : Str
  description : Str
  purpose : List Str
  goodFor : List Str
  badFor : List Str
deriving DecidableEq

structure VDoc where
  ingredientKor : Str
  ingredientEng : Str
  description : Str
  purpose : Str
  goodFor : Str
  badFor : Str
deriving DecidableEq

structure SimIng where
  ingredientKor : Str
  ingredientEng : Str
  description : Str
  purpose : Str
  goodFor : Str
  badFor : Str
deriving DecidableEq

structure SearchResponse where
  query : Str
  answer : Str
  similarIngredients : List SimIng
  sessionId : Str
  chatHistory : List Msg
  success : Bool
deriving DecidableEq

/-- The per-process session map: id to message history, in creation order
(memory.py lines 54-91). -/
abbrev Sessions := List (Str × List Msg)

/-- The two fallible retrieval collaborators and the backend-selection flags
of IngredientSearch (ingredient_search.py lines 27-38). -/
structure SearchDeps where
  useSupabase : Bool
  vectorStore : Option (Str → Nat → Except Str (List VDoc))
  supabaseSearch : Str → Nat → Except Str (List SupaRec)

def updateAssoc (m : Sessions) (k : Str) (v : List Msg) : Sessions :=
  m.map (fun p => if p.1 = k then (k, v) else p)

/-- The negative-index slice keeping the most recent n messages. -/
def lastN (n : Nat) (l : List Msg) : List Msg :=
  l.drop (l.length - n)

def notFoundMsg : Str := "해당 성분에 대한 정보를 찾을 수 없습니다.".toList
def dbErrorMsg : Str := "데이터베이스 검색 중 오류가 발생했습니다.".toList
def vecErrorMsg : Str := "벡터 검색 중 오류가 발생했습니다.".toList
def infoSep : Str := "에 대한 정보: ".toList

def failResponse (query answer sid : Str) : SearchResponse :=
  ⟨query, answer, [], sid, [], false⟩

/-- IngredientSearch._search_supabase (ingredient_search.py lines 88-145);
the backend call is an Except-valued collaborator whose error arm is the
inner exception handler with its fixed message. -/
def searchSupabase (deps : SearchDeps) (query : Str) (st1 : Sessions) (sid : Str)
    (topK : Nat) (now : Str) : SearchResponse × Sessions :=
  match deps.supabaseSearch query topK with
  | Except.error _ => (failResponse query dbErrorMsg sid, st1)
  | Except.ok [] => (failResponse query notFoundMsg sid, st1)
  | Except.ok (first :: rest) =>
    let results := first :: rest
    let answer := first.korName ++ infoSep ++ first.description.take 300
    let sims := results.map (fun r =>
      (⟨r.korName, r.engName, r.description.take 200, joinSep commaSpace r.purpose,
        joinSep commaSpace r.goodFor, joinSep commaSpace r.badFor⟩ : SimIng))
    let msgs := ((alookup st1 sid).getD []) ++ [⟨query, answer, now⟩]
    (⟨query, answer, sims, sid, lastN 4 msgs, true⟩, updateAssoc st1 sid msgs)

/-- IngredientSearch._search_vector (ingredient_search.py lines 147-204). -/
def searchVector (vs : Str → Nat → Except Str (List VDoc)) (query : Str) (st1 : Sessions)
    (sid : Str) (topK : Nat) (now : Str) : SearchResponse × Sessions :=
  match vs query topK with
  | Except.error _ => (failResponse query vecErrorMsg sid, st1)
  | Except.ok [] => (failResponse query notFoundMsg sid, st1)
  | Except.ok (first :: rest) =>
    let docs := first :: rest
    let answer := first.ingredientKor ++ infoSep ++ first.description
    let sims := docs.map (fun d =>
      (⟨d.ingredientKor, d.ingredientEng, d.description, d.purpose, d.goodFor, d.badFor⟩ : SimIng))
    let msgs := ((alookup st1 sid).getD []) ++ [⟨query, answer, now⟩]
    (⟨query, answer, sims, sid, lastN 4 msgs, true⟩, updateAssoc st1 sid msgs)

/-- IngredientSearch.search (ingredient_search.py lines 40-86) together with
ConversationManager.get_or_create_session (memory.py lines 65-79); freshId is
the uuid drawn when no session id is given, now is the save_context
timestamp. -/
def search (deps : SearchDeps) (st : Sessions) (query : Str) (sessionId : Option Str)
    (topK : Nat) (freshId now : Str) : SearchResponse × Sessions :=
  let sid := sessionId.getD freshId
  let st1 := if containsKey st sid then st else st ++ [(sid, [])]
  if deps.useSupabase then searchSupabase deps query st1 sid topK now
  else
    match deps.vectorStore with
    | some vs => searchVector vs query st1 sid topK now
    | none => (failResponse query notFoundMsg sid, st1)

/-! ### Association-list and scan lemmas -/

theorem alookup_none_of_contains_false {α : Type} :
    ∀ (m : List (Str × α)) (k : Str), containsKey m k = false → alookup m k = none
  | [], _, _ => rfl
  | (k2, _) :: rest, k, h => by
    by_cases hk : k2 = k
    · simp [containsKey, hk] at h
    · simp only [containsKey, if_neg hk] at h
      simp only [alookup, if_neg hk]
      exact alookup_none_of_contains_false rest k h

theorem alookup_append_of_some {α : Type} :
    ∀ (m l : List (Str × α)) (k : Str) (v : α),
      alookup m k = some v → alookup (m ++ l) k = some v
  | [], _, _, _, h => by simp [alookup] at h
  | (k2, w) :: rest, l, k, v, h => by
    by_cases hk : k2 = k
    · simp only [alookup, if_pos hk] at h
      simp only [List.cons_append, alookup, if_pos hk]
      exact h
    · simp only [alookup, if_neg hk] at h
      simp only [List.cons_append, alookup, if_neg hk]
      exact alookup_append_of_some rest l k v h

theorem alookup_replace_self {α : Type} (k : Str) (v : α) (m : List (Str × α))
    (h : containsKey m k = true) :
    alookup (m.map (fun p => if p.1 = k then (k, v) else p)) k = some v := by
  induction m with
  | nil => simp [containsKey] at h
  | cons p rest ih =>
    obtain ⟨k2, w⟩ := p
    by_cases hk : k2 = k
    · have h1 : (if (k2, w).1 = k then ((k, v) : Str × α) else (k2, w)) = (k, v) := by
        simp [hk]
      rw [List.map_cons, h1]
      simp [alookup]
    · have h1 : (if (k2, w).1 = k then ((k, v) : Str × α) else (k2, w)) = (k2, w) := by
        simp [hk]
      have h2 : containsKey rest k = true := by
        simpa [containsKey, hk] using h
      rw [List.map_cons, h1]
      simp only [alookup, if_neg hk]
      exact ih h2

theorem alookup_replace_ne {α : Type} (k : Str) (v : α) (k2 : Str) (hne : k2 ≠ k)
    (m : List (Str × α)) :
    alookup (m.map (fun p => if p.1 = k then (k, v) else p)) k2 = alookup m k2 := by
  induction m with
  | nil => rfl
  | cons p rest ih =>
    obtain ⟨a, w⟩ := p
    by_cases ha : a = k
    · have h1 : (if (a, w).1 = k then ((k, v) : Str × α) else (a, w)) = (k, v) := by
        simp [ha]
      have hkk : ¬(k = k2) := fun h => hne h.symm
      have haa : ¬(a = k2) := fun h => hne (by rw [← h]; exact ha)
      rw [List.map_cons, h1]
      simp only [alookup, if_neg hkk, if_neg haa]
      exact ih
    · have h1 : (if (a, w).1 = k then ((k, v) : Str × α) else (a, w)) = (a, w) := by
        simp [ha]
      rw [List.map_cons, h1]
      simp only [alookup]
      rw [ih]

theorem alookup_append_one {α : Type} (k : Str) (v : α) (k2 : Str) :
    ∀ (m : List (Str × α)),
      alookup (m ++ [(k, v)]) k2 =
        match alookup m k2 with
        | some w => some w
        | none => if k = k2 then some v else none
  | [] => by simp [alookup]
  | (a, w) :: rest => by
    by_cases ha : a = k2
    · simp [alookup, ha]
    · simp only [List.cons_append, alookup, if_neg ha]
      exact alookup_append_one k v k2 rest

theorem alookup_insertPy {α : Type} (m : List (Str × α)) (k : Str) (v : α) (k2 : Str) :
    alookup (insertPy m k v) k2 = if k2 = k then some v else alookup m k2 := by
  unfold insertPy
  by_cases hc : containsKey m k = true
  · rw [if_pos hc]
    by_cases hk : k2 = k
    · rw [if_pos hk, hk]
      exact alookup_replace_self k v m hc
    · rw [if_neg hk]
      exact alookup_replace_ne k v k2 hk m
  · have hcf : containsKey m k = false := by
      simpa using hc
    rw [if_neg hc]
    rw [alookup_append_one]
    have hn : alookup m k = none := alookup_none_of_contains_false m k hcf
    by_cases hk : k2 = k
    · rw [hk, hn]
    · have hkk : ¬(k = k2) := fun h => hk h.symm
      cases hm : alookup m k2 with
      | none => simp [if_neg hk, if_neg hkk]
      | some w => simp [if_neg hk]

theorem alookup_resolveGo (kor eng : List (Str × Info)) :
    ∀ (names : List Str) (acc : List (Str × Info)) (name : Str),
      alookup (resolveGo kor eng names acc) name =
        if name ∈ names ∧ (matchOne kor eng name).isSome then matchOne kor eng name
        else alookup acc name
  | [], acc, name => by simp [resolveGo]
  | n :: ns, acc, name => by
    by_cases hn : name = n
    · cases hm : matchOne kor eng n with
      | none =>
        simp only [resolveGo, hm]
        rw [alookup_resolveGo kor eng ns acc name]
        rw [hn]
        simp [hm]
      | some item =>
        simp only [resolveGo, hm]
        rw [alookup_resolveGo kor eng ns (insertPy acc n item) name]
        rw [hn]
        by_cases hmem : n ∈ ns
        · simp [hm, hmem]
        · simp [hm, hmem, alookup_insertPy]
    · cases hm : matchOne kor eng n with
      | none =>
        simp only [resolveGo, hm]
        rw [alookup_resolveGo kor eng ns acc name]
        simp [List.mem_cons, hn]
      | some item =>
        simp only [resolveGo, hm]
        rw [alookup_resolveGo kor eng ns (insertPy acc n item) name]
        simp [List.mem_cons, hn, alookup_insertPy]

/-- The empty string is a Python substring of every string. -/
theorem isSubCh_nil (big : Str) : isSubCh [] big = true := by
  cases big with
  | nil => rfl
  | cons b bs => simp [isSubCh, leadsCh]

theorem getLast_append_one {α : Type} (l : List α) (x : α) : (l ++ [x]).getLast? = some x := by
  rw [List.getLast?_append_cons]
  rfl

/-! ### Test fixtures shared by the concrete witnesses -/

def glyRec : Info :=
  ⟨"글리세린".toList, "Glycerin".toList, "보습 성분".toList,
   SVal.list ["moisturizer".toList], SVal.list ["dry".toList], SVal.list []⟩

def testKor : List (Str × Info) := [("글리세린".toList, glyRec)]

def testEng : List (Str × Info) := [("glycerin".toList, glyRec)]

/-! ### Claims -/

/-- C1: name resolution handles each input name by normalizing it (trim,
lowercase, remove spaces) and matching exactly against the Korean-name index,
else exactly against the English-name index, else by a first-hit substring
scan of the Korean keys and then of the English keys; an unmatched name is
simply absent from the result mapping, and a name whose normalization is a key
of the Korean (respectively, English) index resolves to exactly the record of
that index entry. -/
theorem resolve_staged_lookup (kor eng : List (Str × Info)) (names : List Str)
    (name : Str) (r : Info) :
    (alookup (getFromLocal kor eng names) name =
      if name ∈ names then matchOne kor eng name else none)
    ∧ (alookup kor (normalizeQuery name) = some r → matchOne kor eng name = some r)
    ∧ (alookup kor (normalizeQuery name) = none →
        alookup eng (normalizeQuery name) = some r → matchOne kor eng name = some r) := by
  refine ⟨?_, ?_, ?_⟩
  · rw [getFromLocal, alookup_resolveGo]
    by_cases hmem : name ∈ names
    · cases hm : matchOne kor eng name with
      | none => simp [hmem, hm, alookup]
      | some item => simp [hmem, hm]
    · simp [hmem, alookup]
  · intro h
    simp [matchOne, h]
  · intro h1 h2
    simp [matchOne, h1, h2]

/-- Witness for C1 at a concrete store: the Korean name resolves exactly. -/
theorem resolve_staged_lookup_witness :
    alookup testKor (normalizeQuery ("글리세린".toList)) = some glyRec
    ∧ matchOne testKor testEng ("글리세린".toList) = some glyRec := by
  refine ⟨by decide, ?_⟩
  exact (resolve_staged_lookup testKor testEng [("글리세린".toList)]
    ("글리세린".toList) glyRec).2.1 (by decide)

/-- C7: a failed flat-file parse yields the empty record set without
propagating, its indexes are empty, and every subsequent local lookup on the
empty store resolves nothing, for any list of names. -/
theorem load_failure_empty_store (e : Str) (names : List Str) :
    loadJsonData (Except.error e) = []
    ∧ buildIndexes (loadJsonData (Except.error e)) = ([], [])
    ∧ getFromLocal [] [] names = [] := by
  refine ⟨rfl, rfl, ?_⟩
  induction names with
  | nil => rfl
  | cons n ns ih =>
    have hm : matchOne [] [] n = none := rfl
    show resolveGo [] [] (n :: ns) [] = []
    simp only [resolveGo, hm]
    exact ih

/-- C9: an input name that normalizes to the empty string is resolved, via the
substring scan, to the first record of a non-empty Korean index, provided the
empty string is not itself a key of either index. -/
theorem empty_name_first_record (kor eng : List (Str × Info)) (name k0 : Str)
    (r0 : Info) (rest : List (Str × Info)) :
    normalizeQuery name = [] →
    kor = (k0, r0) :: rest →
    alookup kor [] = none →
    alookup eng [] = none →
    matchOne kor eng name = some r0
    ∧ alookup (getFromLocal kor eng [name]) name = some r0 := by
  intro hnorm hkor hk he
  have hm : matchOne kor eng name = some r0 := by
    rw [matchOne, hnorm, hk, he]
    subst hkor
    simp [partialScan, List.find?, isSubCh_nil]
  refine ⟨hm, ?_⟩
  rw [getFromLocal, alookup_resolveGo]
  simp [hm]

/-- Witness for C9: a whitespace-only input name resolves to the first (only)
record of the concrete Korean index. -/
theorem empty_name_first_record_witness :
    normalizeQuery (" ".toList) = []
    ∧ matchOne testKor testEng (" ".toList) = some glyRec
    ∧ alookup (getFromLocal testKor testEng [(" ".toList)]) (" ".toList) = some glyRec := by
  have h := empty_name_first_record testKor testEng (" ".toList) ("글리세린".toList)
    glyRec [] (by decide) (by decide) (by decide) (by decide)
  exact ⟨by decide, h.1, h.2⟩

/-! ### Classifier step characterizations -/

theorem classifyStep_badMatches (skinType : Str) (st : CState) (name : Str) (info : Info) :
    (classifyStep skinType st (name, info)).badMatches =
      if normalizeSkinType skinType ∈ fieldAsList info.badFor
          ∨ skinType ∈ fieldAsList info.badFor then
        st.badMatches ++ [⟨displayName info name,
          if shortDesc info.description ≠ [] then shortDesc info.description
          else skinType ++ cautionSuffix⟩]
      else if hasGeneralCaution (fieldAsList info.badFor) then
        if displayName info name ∈ st.badNames then st.badMatches
        else st.badMatches ++ [⟨displayName info name,
          if shortDesc info.description ≠ [] then shortDesc info.description
          else genericCaution⟩]
      else st.badMatches := by
  simp only [classifyStep]
  split
  · rfl
  · split
    · split
      · rfl
      · rfl
    · rfl

theorem classifyStep_badNames (skinType : Str) (st : CState) (name : Str) (info : Info) :
    (classifyStep skinType st (name, info)).badNames =
      if normalizeSkinType skinType ∈ fieldAsList info.badFor
          ∨ skinType ∈ fieldAsList info.badFor then
        st.badNames ++ [displayName info name]
      else if hasGeneralCaution (fieldAsList info.badFor) then
        if displayName info name ∈ st.badNames then st.badNames
        else st.badNames ++ [displayName info name]
      else st.badNames := by
  simp only [classifyStep]
  split
  · rfl
  · split
    · split
      · rfl
      · rfl
    · rfl

theorem classifyStep_goodNames (skinType : Str) (st : CState) (name : Str) (info : Info) :
    (classifyStep skinType st (name, info)).goodNames =
      if normalizeSkinType skinType ∈ fieldAsList info.goodFor
          ∨ skinType ∈ fieldAsList info.goodFor then
        st.goodNames ++ [displayName info name]
      else st.goodNames := by
  simp only [classifyStep]

theorem classifyStep_bad_le (skinType : Str) (st : CState) (name : Str) (info : Info) :
    (classifyStep skinType st (name, info)).badMatches.length ≤ st.badMatches.length + 1 := by
  rw [classifyStep_badMatches]
  split
  · simp
  · split
    · split
      · simp
      · simp
    · simp

theorem foldl_classify_bad_le (skinType : Str) :
    ∀ (entries : List (Str × Info)) (st : CState),
      (entries.foldl (classifyStep skinType) st).badMatches.length ≤
        st.badMatches.length + entries.length
  | [], st => by simp
  | e :: es, st => by
    obtain ⟨name, info⟩ := e
    have h1 := classifyStep_bad_le skinType st name info
    have h2 := foldl_classify_bad_le skinType es (classifyStep skinType st (name, info))
    simp only [List.foldl_cons, List.length_cons]
    omega

/-! ### Claims C2, C3, C4 -/

def emptyRawItem : RawItem := ⟨none, none, none, none, none, none⟩

/-- Counterexample for C2 as stated: the flat-file fallback loader copies the
names verbatim, so an item with neither name yields a record whose Korean name
and English name are both empty — the claimed ingestion-time fill does not
happen on this path. -/
theorem loader_empty_names_counterexample :
    (loadItem emptyRawItem).korName = [] ∧ (loadItem emptyRawItem).engName = [] :=
  ⟨rfl, rfl⟩

/-- C2 (amended): records produced by the migration path always carry a
non-empty Korean name (a missing or blank one is filled with the English name,
or "Unknown" when both are missing), while the flat-file fallback loader
copies both name fields verbatim with empty-string defaults and performs no
fill. -/
theorem migration_fills_korean_name (item : RawItem) :
    ((transformIngredient item).korName.isEmpty = false)
    ∧ (loadItem item).korName = item.ingrKorName.getD []
    ∧ (loadItem item).engName = item.ingrEngName.getD [] := by
  refine ⟨?_, rfl, rfl⟩
  simp only [transformIngredient]
  by_cases h1 : (item.ingrKorName.getD [] = [] ∨ pyStrip (item.ingrKorName.getD []) = [])
  · rw [if_pos h1]
    by_cases h2 : item.ingrEngName.getD [] ≠ []
    · rw [if_pos h2]
      cases he : item.ingrEngName.getD [] with
      | nil => exact absurd he h2
      | cons a t => rfl
    · rw [if_neg h2]
      rfl
  · rw [if_neg h1]
    have hk : item.ingrKorName.getD [] ≠ [] := fun h => h1 (Or.inl h)
    cases he : item.ingrKorName.getD [] with
    | nil => exact absurd he hk
    | cons a t => rfl

/-- C3: in one classification step an ingredient contributes at most one bad
match; when the direct bad_for match fires, exactly one bad match is emitted
even if the general-caution tags are also present (the general branch is an
elif of the direct branch); when the direct match does not fire and the
display name was already emitted as a bad match, nothing is emitted again;
and over a whole classify call the bad matches never outnumber the resolved
records. -/
theorem general_caution_no_double_count (skinType : Str) (st : CState) (name : Str)
    (info : Info) (entries : List (Str × Info)) :
    ((classifyStep skinType st (name, info)).badMatches.length ≤ st.badMatches.length + 1)
    ∧ ((normalizeSkinType skinType ∈ fieldAsList info.badFor
          ∨ skinType ∈ fieldAsList info.badFor) →
        (classifyStep skinType st (name, info)).badMatches.length = st.badMatches.length + 1)
    ∧ (¬(normalizeSkinType skinType ∈ fieldAsList info.badFor
          ∨ skinType ∈ fieldAsList info.badFor) →
        displayName info name ∈ st.badNames →
        (classifyStep skinType st (name, info)).badMatches = st.badMatches)
    ∧ ((classifyAll skinType entries).badMatches.length ≤ entries.length) := by
  refine ⟨classifyStep_bad_le skinType st name info, ?_, ?_, ?_⟩
  · intro h
    rw [classifyStep_badMatches, if_pos h]
    simp
  · intro h hmem
    rw [classifyStep_badMatches, if_neg h]
    by_cases hg : hasGeneralCaution (fieldAsList info.badFor) = true
    · rw [if_pos hg, if_pos hmem]
    · rw [if_neg hg]
  · have h := foldl_classify_bad_le skinType entries ⟨[], [], [], []⟩
    simpa [classifyAll] using h

def sensSkin : Str := "민감성".toList

def cautionRec : Info :=
  ⟨"알코올".toList, "Alcohol".toList, "자극 성분".toList,
   SVal.list [], SVal.list [], SVal.list ["sensitive".toList]⟩

/-- Witness for C3: a record whose bad_for carries the sensitive tag, matched
against the sensitive skin type, fires both the direct condition and the
general-caution tags yet yields exactly one bad match. -/
theorem general_caution_no_double_count_witness :
    (normalizeSkinType sensSkin ∈ fieldAsList cautionRec.badFor
      ∨ sensSkin ∈ fieldAsList cautionRec.badFor)
    ∧ hasGeneralCaution (fieldAsList cautionRec.badFor) = true
    ∧ (classifyStep sensSkin ⟨[], [], [], []⟩ ("알코올".toList, cautionRec)).badMatches.length
        = (List.length ([] : List BadMatch)) + 1 := by
  refine ⟨by decide, by decide, ?_⟩
  exact (general_caution_no_double_count sensSkin ⟨[], [], [], []⟩ ("알코올".toList)
    cautionRec []).2.1 (by decide)

/-- C4: the skin type is normalized via the fixed localization table, any
input absent from the table passes through lowercased unchanged, and a
record matches on good_for (and direct bad_for) when either the canonical
tag or the raw skin-type string is a member of the field. -/
theorem skin_type_normalization (s v skinType : Str) (st : CState) (name : Str) (info : Info) :
    (alookup skinTypeMap s = some v → normalizeSkinType s = v)
    ∧ (alookup skinTypeMap s = none → normalizeSkinType s = pyLower s)
    ∧ ((classifyStep skinType st (name, info)).goodNames ≠ st.goodNames ↔
        (normalizeSkinType skinType ∈ fieldAsList info.goodFor
          ∨ skinType ∈ fieldAsList info.goodFor))
    ∧ ((normalizeSkinType skinType ∈ fieldAsList info.badFor
          ∨ skinType ∈ fieldAsList info.badFor) →
        displayName info name ∈ (classifyStep skinType st (name, info)).badNames) := by
  refine ⟨?_, ?_, ?_, ?_⟩
  · intro h
    rw [normalizeSkinType, h]
    rfl
  · intro h
    rw [normalizeSkinType, h]
    rfl
  · rw [classifyStep_goodNames]
    by_cases hc : (normalizeSkinType skinType ∈ fieldAsList info.goodFor
        ∨ skinType ∈ fieldAsList info.goodFor)
    · rw [if_pos hc]
      refine ⟨fun _ => hc, fun _ heq => ?_⟩
      have hlen := congrArg List.length heq
      simp at hlen
    · rw [if_neg hc]
      simp [hc]
  · intro h
    rw [classifyStep_badNames, if_pos h]
    simp

/-- Witness for C4: the table maps the Korean dry label to the canonical tag,
and an input absent from the table passes through lowercased. -/
theorem skin_type_normalization_witness :
    normalizeSkinType ("건성".toList) = "dry".toList
    ∧ normalizeSkinType ("DRY".toList) = pyLower ("DRY".toList) := by
  constructor
  · exact (skin_type_normalization ("건성".toList) ("dry".toList) sensSkin
      ⟨[], [], [], []⟩ [] cautionRec).1 (by decide)
  · exact (skin_type_normalization ("DRY".toList) ("dry".toList) sensSkin
      ⟨[], [], [], []⟩ [] cautionRec).2.1 (by decide)

/-! ### Claims C5, C8 (report engine) -/

/-- C5: the report always ends with exactly one closing sentence, chosen by
the decision table on (goodNames non-empty, badNames non-empty): good without
bad gives the overall-good verdict, good with bad the observe-reaction
verdict, and no good (bad present or not) the check-reaction verdict; the
remaining parts are the opening sentence plus one optional sentence per
non-empty name list, so exactly one closing sentence is appended. -/
theorem closing_verdict_table (skinType goodNames badNames mainPurpose : Str) :
    ((reportParts skinType goodNames badNames mainPurpose).getLast? =
      some (closingTable skinType (!goodNames.isEmpty) (!badNames.isEmpty)))
    ∧ ((reportParts skinType goodNames badNames mainPurpose).length =
        2 + (if goodNames = [] then 0 else 1) + (if badNames = [] then 0 else 1)) := by
  cases goodNames with
  | nil =>
    cases badNames with
    | nil => exact ⟨rfl, rfl⟩
    | cons b bs => exact ⟨rfl, rfl⟩
  | cons g gs =>
    cases badNames with
    | nil => exact ⟨rfl, rfl⟩
    | cons b bs => exact ⟨rfl, rfl⟩

/-- C8: the report generator is a pure deterministic function of its four
structured inputs: equal inputs give the identical output string. -/
theorem generate_deterministic (s1 g1 b1 : Str) (p1 : List Str)
    (s2 g2 b2 : Str) (p2 : List Str) :
    s1 = s2 → g1 = g2 → b1 = b2 → p1 = p2 →
    generateReport s1 g1 b1 p1 = generateReport s2 g2 b2 p2 := by
  intro h1 h2 h3 h4
  rw [h1, h2, h3, h4]

/-- Witness for C8 at concrete inputs. -/
theorem generate_deterministic_witness :
    generateReport ("건성".toList) ("글리세린".toList) [] ["moisturizer".toList]
      = generateReport ("건성".toList) ("글리세린".toList) [] ["moisturizer".toList] :=
  generate_deterministic _ _ _ _ _ _ _ _ rfl rfl rfl rfl

/-! ### Claims C6, C10 (search orchestrator) -/

theorem searchSupabase_fail (deps : SearchDeps) (query : Str) (st1 : Sessions)
    (sid : Str) (topK : Nat) (now : Str)
    (h : (searchSupabase deps query st1 sid topK now).1.success = false) :
    (searchSupabase deps query st1 sid topK now).2 = st1
    ∧ (searchSupabase deps query st1 sid topK now).1.chatHistory = [] := by
  cases hr : deps.supabaseSearch query topK with
  | error e => constructor <;> simp [searchSupabase, hr, failResponse]
  | ok l =>
    cases l with
    | nil => constructor <;> simp [searchSupabase, hr, failResponse]
    | cons a t =>
      exfalso
      simp [searchSupabase, hr] at h

theorem searchVector_fail (vs : Str → Nat → Except Str (List VDoc)) (query : Str)
    (st1 : Sessions) (sid : Str) (topK : Nat) (now : Str)
    (h : (searchVector vs query st1 sid topK now).1.success = false) :
    (searchVector vs query st1 sid topK now).2 = st1
    ∧ (searchVector vs query st1 sid topK now).1.chatHistory = [] := by
  cases hr : vs query topK with
  | error e => constructor <;> simp [searchVector, hr, failResponse]
  | ok l =>
    cases l with
    | nil => constructor <;> simp [searchVector, hr, failResponse]
    | cons a t =>
      exfalso
      simp [searchVector, hr] at h

/-- C6 (amended): any exception raised by either retrieval path is caught
inside search and converted into a success=false response whose answer is the
fixed backend-specific error message (not the exception's own message); the
conversion happens in the inner handlers, so no retrieval exception reaches
the caller of search. -/
theorem retrieval_error_handled (deps : SearchDeps) (st : Sessions) (query : Str)
    (sessionId : Option Str) (topK : Nat) (freshId now : Str) (e : Str) :
    (deps.useSupabase = true → deps.supabaseSearch query topK = Except.error e →
      ((search deps st query sessionId topK freshId now).1.success = false
        ∧ (search deps st query sessionId topK freshId now).1.answer = dbErrorMsg))
    ∧ (∀ vs, deps.useSupabase = false → deps.vectorStore = some vs →
        vs query topK = Except.error e →
        ((search deps st query sessionId topK freshId now).1.success = false
          ∧ (search deps st query sessionId topK freshId now).1.answer = vecErrorMsg)) := by
  constructor
  · intro hu he
    constructor <;> simp [search, hu, searchSupabase, he, failResponse]
  · intro vs hu hv he
    constructor <;> simp [search, hu, hv, searchVector, he, failResponse]

def boomDeps : SearchDeps :=
  ⟨true, none, fun _ _ => Except.error ("boom".toList)⟩

/-- Counterexample for C6 as stated: a structured-backend exception whose
message is boom is caught, but the returned answer is the fixed database
error message, which does not contain the exception's message at all. -/
theorem retrieval_error_message_counterexample :
    (search boomDeps [] ("글리세린".toList) none 3 ("s1".toList) ("t0".toList)).1.success = false
    ∧ (search boomDeps [] ("글리세린".toList) none 3 ("s1".toList) ("t0".toList)).1.answer
        = dbErrorMsg
    ∧ isSubCh ("boom".toList)
        (search boomDeps [] ("글리세린".toList) none 3 ("s1".toList) ("t0".toList)).1.answer
        = false := by
  refine ⟨?_, ?_, ?_⟩ <;> decide

/-- Witness for C6 at a concrete erroring backend. -/
theorem retrieval_error_handled_witness :
    (search boomDeps [] ("q".toList) none 3 ("s1".toList) ("t0".toList)).1.success = false
    ∧ (search boomDeps [] ("q".toList) none 3 ("s1".toList) ("t0".toList)).1.answer
        = dbErrorMsg :=
  (retrieval_error_handled boomDeps [] ("q".toList) none 3 ("s1".toList) ("t0".toList)
    ("boom".toList)).1 (by decide) rfl

/-- C10: whenever search returns success=false, every existing session keeps
its message history unchanged (save_context runs only on the success path)
and the returned chat history is the empty list even when the session already
holds prior turns. -/
theorem failed_search_preserves_history (deps : SearchDeps) (st : Sessions) (query : Str)
    (sessionId : Option Str) (topK : Nat) (freshId now : Str) :
    (search deps st query sessionId topK freshId now).1.success = false →
      ((∀ s ms, alookup st s = some ms →
          alookup (search deps st query sessionId topK freshId now).2 s = some ms)
        ∧ (search deps st query sessionId topK freshId now).1.chatHistory = []) := by
  intro hfail
  have hpres : ∀ s ms, alookup st s = some ms →
      alookup (if containsKey st (sessionId.getD freshId) then st
               else st ++ [(sessionId.getD freshId, [])]) s = some ms := by
    intro s ms hms
    by_cases hc : containsKey st (sessionId.getD freshId) = true
    · rw [if_pos hc]
      exact hms
    · rw [if_neg hc]
      exact alookup_append_of_some st _ s ms hms
  cases hu : deps.useSupabase with
  | true =>
    have hs : search deps st query sessionId topK freshId now =
        searchSupabase deps query (if containsKey st (sessionId.getD freshId) then st
          else st ++ [(sessionId.getD freshId, [])]) (sessionId.getD freshId) topK now := by
      simp [search, hu]
    rw [hs] at hfail
    obtain ⟨h2, h3⟩ := searchSupabase_fail deps query _ _ topK now hfail
    refine ⟨?_, ?_⟩
    · intro s ms hms
      rw [hs, h2]
      exact hpres s ms hms
    · rw [hs]
      exact h3
  | false =>
    cases hv : deps.vectorStore with
    | none =>
      refine ⟨?_, ?_⟩
      · intro s ms hms
        have h2 : (search deps st query sessionId topK freshId now).2 =
            (if containsKey st (sessionId.getD freshId) then st
             else st ++ [(sessionId.getD freshId, [])]) := by
          simp [search, hu, hv]
        rw [h2]
        exact hpres s ms hms
      · simp [search, hu, hv, failResponse]
    | some vs =>
      have hs : search deps st query sessionId topK freshId now =
          searchVector vs query (if containsKey st (sessionId.getD freshId) then st
            else st ++ [(sessionId.getD freshId, [])]) (sessionId.getD freshId) topK now := by
        simp [search, hu, hv]
      rw [hs] at hfail
      obtain ⟨h2, h3⟩ := searchVector_fail vs query _ _ topK now hfail
      refine ⟨?_, ?_⟩
      · intro s ms hms
        rw [hs, h2]
        exact hpres s ms hms
      · rw [hs]
        exact h3

def noDeps : SearchDeps := ⟨false, none, fun _ _ => Except.ok []⟩

def msg0 : Msg := ⟨"q".toList, "a".toList, "t".toList⟩

def st0 : Sessions := [("s1".toList, [msg0])]

/-- Witness for C10: with no backend available, a failed search leaves the
pre-existing session history intact and returns an empty chat history. -/
theorem failed_search_preserves_history_witness :
    (search noDeps st0 ("글리세린".toList) (some ("s1".toList)) 3 ("f".toList) ("t".toList)).1.success
      = false
    ∧ alookup (search noDeps st0 ("글리세린".toList) (some ("s1".toList)) 3
        ("f".toList) ("t".toList)).2 ("s1".toList) = some [msg0]
    ∧ (search noDeps st0 ("글리세린".toList) (some ("s1".toList)) 3
        ("f".toList) ("t".toList)).1.chatHistory = [] := by
  have h := failed_search_preserves_history noDeps st0 ("글리세린".toList)
    (some ("s1".toList)) 3 ("f".toList) ("t".toList) (by decide)
  exact ⟨by decide, h.1 ("s1".toList) [msg0] (by decide), h.2⟩

end Ingredient
